import Mathlib

/-!
# Bill-splitting engine: a shallow embedding

This file embeds the core bill-splitting module (`splitBill` and its helper
functions) in Lean 4 and proves the specified properties about it.

Modelling conventions:
* JS numbers are modelled as rationals (`ℚ`); the spec requires exact decimal
  semantics for the amounts involved.
* `Math.round` is `⌊x + 1/2⌋` (JavaScript rounds halves toward positive
  infinity, e.g. `Math.round(-0.5) = -0`).
* The division of a shared item's price by the participant count is the one
  potentially undefined operation; it is made explicit by letting the
  per-person computation return `Option ℚ`, with `none` marking a division
  by a zero participant count.  The safety theorem shows the `none` case is
  unreachable from `splitBill`.
* Strings and the date pipeline (`split`, `parseInt`, template rendering)
  are modelled over Lean `String`/`List Char`; a missing component of the
  split is an `Option.none` (JS `undefined`), and a failed `parseInt` is
  `none` (JS `NaN`), rendered as `"undefined"` / `"NaN"` exactly as a JS
  template literal would.
-/

/-- JavaScript `Math.round`: round to the nearest integer, halves toward
positive infinity, i.e. `⌊x + 1/2⌋` (stated executably via `num / den`;
`mathRound_eq_floor` below identifies it with the floor). -/
def mathRound (x : ℚ) : ℤ := (x + 1 / 2).num / ((x + 1 / 2).den : ℤ)

/-- `Math.round(x * 10) / 10`: round to the nearest tenth (the repeated
rounding idiom of the source). -/
def roundToTenth (x : ℚ) : ℚ := (mathRound (x * 10) : ℚ) / 10

/-- A bill line item: the tagged union `SharedBillItem | PersonalBillItem`
(common fields `price`, `name`; the personal variant carries `person`). -/
inductive BillItem where
  | shared (price : ℚ) (name : String)
  | personal (price : ℚ) (name : String) (person : String)
deriving DecidableEq

/-- `item.price` (common field of both variants). -/
def BillItem.price : BillItem → ℚ
  | .shared p _ => p
  | .personal p _ _ => p

/-- The `isShared` discriminant of the union. -/
def BillItem.isShared : BillItem → Bool
  | .shared _ _ => true
  | .personal _ _ _ => false

/-- Input record `BillInput`. -/
structure BillInput where
  date : String
  location : String
  tipPercentage : ℚ
  items : List BillItem
deriving DecidableEq

/-- Output line `PersonItem`. -/
structure PersonItem where
  name : String
  amount : ℚ
deriving DecidableEq

/-- Output record `BillOutput`. -/
structure BillOutput where
  date : String
  location : String
  subTotal : ℚ
  tip : ℚ
  totalAmount : ℚ
  items : List PersonItem
deriving DecidableEq

/-- Decimal value of a digit string (used by the `parseInt` model). -/
def digitsVal (l : List Char) : ℕ :=
  l.foldl (fun n c => 10 * n + (c.toNat - '0'.toNat)) 0

/-- Longest leading digit run: `none` when there is no leading digit
(JS `parseInt` then yields `NaN`). -/
def digitsPrefixVal (l : List Char) : Option ℕ :=
  let ds := l.takeWhile Char.isDigit
  if ds.isEmpty then none else some (digitsVal ds)

/-- Model of `parseInt(s, 10)`: optional sign followed by the longest run of
decimal digits; `none` models `NaN`.  (Leading-whitespace trimming is
omitted: no caller passes whitespace.) -/
def jsParseInt (s : String) : Option ℤ :=
  match s.data with
  | '-' :: rest => (digitsPrefixVal rest).map (fun n => -(n : ℤ))
  | '+' :: rest => (digitsPrefixVal rest).map (fun n => (n : ℤ))
  | l => (digitsPrefixVal l).map (fun n => (n : ℤ))

/-- Split a character list at every occurrence of `sep` (the model of the
JavaScript `split` with the one-character separator `"-"`; `split` keeps
empty fragments, and an empty string yields `[""]`). -/
def splitOnChar (sep : Char) : List Char → List (List Char)
  | [] => [[]]
  | c :: rest =>
    let r := splitOnChar sep rest
    if c = sep then [] :: r
    else
      match r with
      | [] => [[c]]
      | h :: t => (c :: h) :: t

/-- `date.split("-")` as a list of strings. -/
def jsSplitDash (s : String) : List String :=
  (splitOnChar '-' s.data).map String.mk

/-- Template rendering of a possibly-`NaN` number: `NaN` prints as `"NaN"`. -/
def jsNumToString : Option ℤ → String
  | none => "NaN"
  | some n => toString n

/-- Template rendering of a possibly-`undefined` string. -/
def strOrUndefined : Option String → String
  | none => "undefined"
  | some s => s

/-- `formatDate`: destructure `date.split("-")` into year/month/day (missing
components are `undefined`), `parseInt` month and day, and render
`` `${year}年${monthNum}月${dayNum}日` ``. -/
def formatDate (date : String) : String :=
  let parts := jsSplitDash date
  let year := parts.get? 0
  let monthNum := (parts.get? 1).bind jsParseInt
  let dayNum := (parts.get? 2).bind jsParseInt
  strOrUndefined year ++ "年" ++ jsNumToString monthNum ++ "月" ++
    jsNumToString dayNum ++ "日"

/-- `calculateSubTotal`: running-total loop over all item prices. -/
def calculateSubTotal (items : List BillItem) : ℚ :=
  items.foldl (fun total item => total + item.price) 0

/-- `calculateTip`: `Math.round(subTotal * tipPercentage / 100 * 10) / 10`. -/
def calculateTip (subTotal : ℚ) (tipPercentage : ℚ) : ℚ :=
  let tipAmount := subTotal * tipPercentage / 100
  (mathRound (tipAmount * 10) : ℚ) / 10

/-- The accumulator loop of `scanPersons`: push each personal item's person
unless already present (`persons.includes`). -/
def scanPersonsLoop (persons : List String) : List BillItem → List String
  | [] => persons
  | item :: rest =>
    match item with
    | .shared _ _ => scanPersonsLoop persons rest
    | .personal _ _ person =>
      if persons.contains person then scanPersonsLoop persons rest
      else scanPersonsLoop (persons ++ [person]) rest

/-- `scanPersons`: distinct persons of personal items, first-occurrence
order. -/
def scanPersons (items : List BillItem) : List String :=
  scanPersonsLoop [] items

/-- The accumulation loop of `calculatePersonAmount`: shared items contribute
`price / persons` (`none` marks the division when `persons = 0`), personal
items contribute `price` when the person matches. -/
def sumForPerson (name : String) (persons : ℕ) (acc : ℚ) :
    List BillItem → Option ℚ
  | [] => some acc
  | item :: rest =>
    match item with
    | .shared price _ =>
      if persons = 0 then none
      else sumForPerson name persons (acc + price / (persons : ℚ)) rest
    | .personal price _ person =>
      sumForPerson name persons
        (if person = name then acc + price else acc) rest

/-- `calculatePersonAmount`: the person's subtotal plus their own-subtotal
tip, rounded to the nearest tenth (the tip itself is not rounded first). -/
def calculatePersonAmount (items : List BillItem) (tipPercentage : ℚ)
    (name : String) (persons : ℕ) : Option ℚ :=
  (sumForPerson name persons 0 items).map fun personSubTotal =>
    let personTip := personSubTotal * tipPercentage / 100
    roundToTenth (personSubTotal + personTip)

/-- The `names.map` of `calculateItems`, with the `Option` of
`calculatePersonAmount` propagated. -/
def mapAmounts (items : List BillItem) (tipPercentage : ℚ) (persons : ℕ) :
    List String → Option (List PersonItem)
  | [] => some []
  | name :: rest =>
    match calculatePersonAmount items tipPercentage name persons,
        mapAmounts items tipPercentage persons rest with
    | some amount, some tail => some ({ name := name, amount := amount } :: tail)
    | _, _ => none

/-- `calculateItems`: one `PersonItem` per scanned person, each amount from
`calculatePersonAmount` with `persons = names.length`. -/
def calculateItems (items : List BillItem) (tipPercentage : ℚ) :
    Option (List PersonItem) :=
  let names := scanPersons items
  let persons := names.length
  mapAmounts items tipPercentage persons names

/-- The `reduce` of `adjustAmount`: sum of the person amounts. -/
def sumAmounts (items : List PersonItem) : ℚ :=
  items.foldl (fun sum item => sum + item.amount) 0

/-- `adjustAmount`: round the gap between `totalAmount` and the current sum
to a tenth; when nonzero and the list is nonempty, fold it into the first
person's amount (re-rounded). -/
def adjustAmount (totalAmount : ℚ) (items : List PersonItem) :
    List PersonItem :=
  let currentTotal := sumAmounts items
  let difference := roundToTenth (totalAmount - currentTotal)
  if difference = 0 then items
  else
    match items with
    | [] => items
    | first :: rest =>
      { first with amount := roundToTenth (first.amount + difference) } :: rest

/-- `splitBill`: the full pipeline.  The `Option` is the propagated
division-safety obligation of `calculateItems`; the safety theorem shows it
is always `some`. -/
def splitBill (input : BillInput) : Option BillOutput :=
  let date := formatDate input.date
  let location := input.location
  let subTotal := calculateSubTotal input.items
  let tip := calculateTip subTotal input.tipPercentage
  let totalAmount := subTotal + tip
  (calculateItems input.items input.tipPercentage).map fun items =>
    { date := date, location := location, subTotal := subTotal, tip := tip,
      totalAmount := totalAmount, items := adjustAmount totalAmount items }

/-! ## Analysis-side definitions -/

/-- `x` is a whole number of tenths. -/
def isTenthQ (x : ℚ) : Prop := ∃ k : ℤ, x = (k : ℚ) / 10

/-- The persons named by the personal items, in item order (shared items
name nobody). -/
def personsOf (items : List BillItem) : List String :=
  items.filterMap fun it =>
    match it with
    | .shared _ _ => none
    | .personal _ _ person => some person

/-- Distinct values in first-occurrence order, stated by the structural
recursion that keeps the head and discards its later duplicates. -/
def firstOccurrences : List String → List String
  | [] => []
  | x :: xs => x :: firstOccurrences (xs.filter (fun y => y != x))
termination_by l => l.length
decreasing_by
  simp only [List.length_cons, Nat.lt_succ_iff]
  exact List.length_filter_le _ _

/-- One item's contribution to a given person's subtotal: shared items give
`price / persons`, personal items give `price` exactly when the person
matches. -/
def contribOf (name : String) (persons : ℕ) : BillItem → ℚ
  | .shared price _ => price / (persons : ℚ)
  | .personal price _ person => if person = name then price else 0

/-- Closed form of the person's subtotal. -/
def personSubTotalOf (items : List BillItem) (name : String) (persons : ℕ) :
    ℚ :=
  (items.map (contribOf name persons)).sum

/-- Closed form of the pre-reconciliation person amount: the subtotal plus
the (unrounded) personal tip, rounded to a tenth. -/
def personAmountOf (items : List BillItem) (tipPercentage : ℚ)
    (name : String) (persons : ℕ) : ℚ :=
  let s := personSubTotalOf items name persons
  roundToTenth (s + s * tipPercentage / 100)

/-- Closed form of the pre-reconciliation `PersonItem` list. -/
def preItems (input : BillInput) : List PersonItem :=
  (scanPersons input.items).map fun n =>
    { name := n,
      amount := personAmountOf input.items input.tipPercentage n
        (scanPersons input.items).length }

/-- Closed form of the full output record. -/
def splitBillOut (input : BillInput) : BillOutput :=
  let subTotal := calculateSubTotal input.items
  let tip := calculateTip subTotal input.tipPercentage
  let totalAmount := subTotal + tip
  { date := formatDate input.date, location := input.location,
    subTotal := subTotal, tip := tip, totalAmount := totalAmount,
    items := adjustAmount totalAmount (preItems input) }

/-! ## Spec-side definitions (stated from the specification's words, to be
compared with the code-side definitions above) -/

/-- Spec wording of a person's personal contribution: the sum of `price`
over personal items naming that person. -/
def specPersonalSum (items : List BillItem) (name : String) : ℚ :=
  (items.filterMap fun it =>
    match it with
    | .personal price _ person => if person = name then some price else none
    | .shared _ _ => none).sum

/-- Spec wording of a person's shared contribution: the sum over all shared
items of `price / N`. -/
def specSharedSum (items : List BillItem) (persons : ℕ) : ℚ :=
  ((items.filterMap fun it =>
    match it with
    | .shared price _ => some price
    | .personal _ _ _ => none).map (fun price => price / (persons : ℚ))).sum

/-- The per-person amount as the claim words it: the participant tip is
rounded to the nearest tenth BEFORE being added to the subtotal.  (The code
rounds only the final sum; the two differ.) -/
def claimPersonAmount (items : List BillItem) (tipPercentage : ℚ)
    (name : String) (persons : ℕ) : ℚ :=
  let s := specPersonalSum items name + specSharedSum items persons
  let t := roundToTenth (s * tipPercentage / 100)
  roundToTenth (s + t)

/-- Rounding to the nearest tenth with ties away from zero, as the claim
words the rounding rule.  (JavaScript `Math.round` instead sends ties
toward positive infinity; the two differ on negative ties.) -/
def roundTenthAway (x : ℚ) : ℚ :=
  if x < 0 then -(((⌊-x * 10 + 1 / 2⌋ : ℤ) : ℚ) / 10)
  else ((⌊x * 10 + 1 / 2⌋ : ℤ) : ℚ) / 10

/-! ## Concrete fixture inputs and outputs used by the closed theorems -/

/-- One personal item priced 10.05, no tip: the total 10.05 is not a whole
number of tenths. -/
def conservationGapInput : BillInput :=
  { date := "2024-01-01", location := "L", tipPercentage := 0,
    items := [.personal (201 / 20) "thing" "A"] }

def conservationGapOutput : BillOutput :=
  { date := "2024年1月1日", location := "L", subTotal := 201 / 20, tip := 0,
    totalAmount := 201 / 20, items := [{ name := "A", amount := 101 / 10 }] }

/-- One personal item, 10% tip: everything aligns to tenths. -/
def conservationOkInput : BillInput :=
  { date := "2024-01-01", location := "L", tipPercentage := 10,
    items := [.personal 10 "x" "A"] }

def conservationOkOutput : BillOutput :=
  { date := "2024年1月1日", location := "L", subTotal := 10, tip := 1,
    totalAmount := 11, items := [{ name := "A", amount := 11 }] }

/-- A malformed date: three components, none numeric. -/
def badDateInput : BillInput :=
  { date := "not-a-date", location := "L", tipPercentage := 0, items := [] }

/-- A date with no dash at all. -/
def noDashInput : BillInput :=
  { date := "nodash", location := "L", tipPercentage := 0, items := [] }

/-- One personal item priced 14.01 at 1% tip: rounding the participant tip
before the final addition changes the rounded result. -/
def tipOrderItems : List BillItem := [.personal (1401 / 100) "x" "A"]

/-- Two personal items; swapping them permutes the output items list. -/
def permInputA : BillInput :=
  { date := "2024-01-01", location := "L", tipPercentage := 0,
    items := [.personal 10 "x" "A", .personal 20 "y" "B"] }

def permInputB : BillInput :=
  { date := "2024-01-01", location := "L", tipPercentage := 0,
    items := [.personal 20 "y" "B", .personal 10 "x" "A"] }

def permOutputA : BillOutput :=
  { date := "2024年1月1日", location := "L", subTotal := 30, tip := 0,
    totalAmount := 30,
    items := [{ name := "A", amount := 10 }, { name := "B", amount := 20 }] }

def permOutputB : BillOutput :=
  { date := "2024年1月1日", location := "L", subTotal := 30, tip := 0,
    totalAmount := 30,
    items := [{ name := "B", amount := 20 }, { name := "A", amount := 10 }] }

/-- Two personal items priced 10.05 and 20.05, no tip: both amounts round
up, so the pre-reconciliation sum overshoots the total by 0.1. -/
def driftInput : BillInput :=
  { date := "2024-01-01", location := "L", tipPercentage := 0,
    items := [.personal (201 / 20) "a" "A", .personal (401 / 20) "b" "B"] }

def driftOutput : BillOutput :=
  { date := "2024年1月1日", location := "L", subTotal := 301 / 10, tip := 0,
    totalAmount := 301 / 10,
    items := [{ name := "A", amount := 10 },
              { name := "B", amount := 201 / 10 }] }

/-- Persons B, A discovered in that order; a later duplicate "B" and a
shared item introduce no new participants. -/
def discoveryInput : BillInput :=
  { date := "2024-01-01", location := "L", tipPercentage := 0,
    items := [.personal 5 "i1" "B", .shared 9 "i2", .personal 3 "i3" "A",
              .personal 2 "i4" "B"] }

def discoveryOutput : BillOutput :=
  { date := "2024年1月1日", location := "L", subTotal := 19, tip := 0,
    totalAmount := 19,
    items := [{ name := "B", amount := 23 / 2 },
              { name := "A", amount := 15 / 2 }] }

/-- A negative price with a positive tip percentage: the tip tie rounds
toward zero (`Math.round(-0.5) = -0`), not away from it. -/
def negTieInput : BillInput :=
  { date := "2024-01-01", location := "L", tipPercentage := 5,
    items := [.personal (-1) "refund" "A"] }

def negTieOutput : BillOutput :=
  { date := "2024年1月1日", location := "L", subTotal := -1, tip := 0,
    totalAmount := -1, items := [{ name := "A", amount := -1 }] }

/-- Subtotal 10 at tipPercentage 12.34: the tip rounds to 1.2. -/
def tipExampleInput : BillInput :=
  { date := "2024-01-01", location := "L", tipPercentage := 617 / 50,
    items := [.personal 10 "x" "A"] }

def tipExampleOutput : BillOutput :=
  { date := "2024年1月1日", location := "L", subTotal := 10, tip := 6 / 5,
    totalAmount := 56 / 5, items := [{ name := "A", amount := 56 / 5 }] }

/-! ## Characterization lemmas -/

theorem mathRound_eq_floor (x : ℚ) : mathRound x = ⌊x + 1 / 2⌋ :=
  Rat.floor_def.symm

theorem roundToTenth_eq (x : ℚ) :
    roundToTenth x = (⌊x * 10 + 1 / 2⌋ : ℚ) / 10 := by
  rw [roundToTenth, mathRound_eq_floor]

theorem isTenthQ_roundToTenth (x : ℚ) : isTenthQ (roundToTenth x) :=
  ⟨mathRound (x * 10), rfl⟩

theorem isTenthQ_zero : isTenthQ 0 := ⟨0, by norm_num⟩

theorem isTenthQ_add {x y : ℚ} (hx : isTenthQ x) (hy : isTenthQ y) :
    isTenthQ (x + y) := by
  obtain ⟨k, rfl⟩ := hx
  obtain ⟨m, rfl⟩ := hy
  exact ⟨k + m, by push_cast; ring⟩

theorem roundToTenth_of_isTenth {x : ℚ} (hx : isTenthQ x) :
    roundToTenth x = x := by
  obtain ⟨k, rfl⟩ := hx
  rw [roundToTenth_eq]
  have h10 : ((k : ℚ) / 10) * 10 = (k : ℚ) := by
    field_simp
  rw [h10, Int.floor_int_add]
  norm_num

theorem foldl_add_eq {α : Type} (f : α → ℚ) :
    ∀ (l : List α) (c : ℚ), l.foldl (fun a x => a + f x) c = c + (l.map f).sum
  | [], c => by simp
  | x :: xs, c => by
    rw [List.foldl_cons, foldl_add_eq f xs (c + f x)]
    simp [add_assoc]

theorem calculateSubTotal_eq (items : List BillItem) :
    calculateSubTotal items = (items.map BillItem.price).sum := by
  rw [calculateSubTotal, foldl_add_eq]; simp

theorem sumAmounts_eq (items : List PersonItem) :
    sumAmounts items = (items.map PersonItem.amount).sum := by
  rw [sumAmounts, foldl_add_eq]; simp

theorem sumAmounts_cons (x : PersonItem) (l : List PersonItem) :
    sumAmounts (x :: l) = x.amount + sumAmounts l := by
  simp [sumAmounts_eq]

theorem isTenthQ_sumAmounts :
    ∀ (l : List PersonItem), (∀ it ∈ l, isTenthQ it.amount) →
      isTenthQ (sumAmounts l)
  | [], _ => by
    have : sumAmounts [] = 0 := by simp [sumAmounts]
    rw [this]; exact isTenthQ_zero
  | x :: xs, h => by
    rw [sumAmounts_cons]
    exact isTenthQ_add (h x (by simp))
      (isTenthQ_sumAmounts xs fun it hit => h it (by simp [hit]))

theorem sumForPerson_char (name : String) (persons : ℕ) :
    ∀ (l : List BillItem) (acc : ℚ),
      sumForPerson name persons acc l =
        if persons = 0 ∧ l.any BillItem.isShared then none
        else some (acc + (l.map (contribOf name persons)).sum)
  | [], acc => by simp [sumForPerson]
  | .shared price nm :: rest, acc => by
    rw [sumForPerson]
    by_cases h0 : persons = 0
    · simp [h0, BillItem.isShared]
    · rw [if_neg h0, sumForPerson_char name persons rest (acc + price / persons)]
      simp only [List.any_cons, List.map_cons, List.sum_cons, h0,
        false_and, if_false, contribOf]
      rw [add_assoc]
  | .personal price nm person :: rest, acc => by
    rw [sumForPerson,
      sumForPerson_char name persons rest (if person = name then acc + price else acc)]
    simp only [List.any_cons, List.map_cons, List.sum_cons, BillItem.isShared,
      Bool.false_or, contribOf]
    by_cases hp : person = name
    · simp only [hp, if_pos rfl, if_true]
      split
      · rfl
      · rw [Option.some.injEq]; ring
    · simp only [if_neg hp]
      split
      · rfl
      · rw [Option.some.injEq]; ring

theorem calculatePersonAmount_char (items : List BillItem) (tipPercentage : ℚ)
    (name : String) (persons : ℕ) :
    calculatePersonAmount items tipPercentage name persons =
      if persons = 0 ∧ items.any BillItem.isShared then none
      else some (personAmountOf items tipPercentage name persons) := by
  rw [calculatePersonAmount, sumForPerson_char]
  split
  · rfl
  · simp [personAmountOf, personSubTotalOf]

theorem calculatePersonAmount_of_ne (items : List BillItem)
    (tipPercentage : ℚ) (name : String) {persons : ℕ} (h : persons ≠ 0) :
    calculatePersonAmount items tipPercentage name persons =
      some (personAmountOf items tipPercentage name persons) := by
  rw [calculatePersonAmount_char, if_neg]
  intro hc
  exact h hc.1

theorem mapAmounts_of_ne (items : List BillItem) (tipPercentage : ℚ)
    {persons : ℕ} (h : persons ≠ 0) :
    ∀ names : List String,
      mapAmounts items tipPercentage persons names =
        some (names.map fun n =>
          { name := n, amount := personAmountOf items tipPercentage n persons })
  | [] => by simp [mapAmounts]
  | n :: rest => by
    rw [mapAmounts, calculatePersonAmount_of_ne items tipPercentage n h,
      mapAmounts_of_ne items tipPercentage h rest]
    simp

theorem calculateItems_eq (items : List BillItem) (tipPercentage : ℚ) :
    calculateItems items tipPercentage =
      some ((scanPersons items).map fun n =>
        { name := n,
          amount := personAmountOf items tipPercentage n
            (scanPersons items).length }) := by
  rw [calculateItems]
  cases h : scanPersons items with
  | nil => simp [mapAmounts]
  | cons a l =>
    exact mapAmounts_of_ne items tipPercentage (by simp) (a :: l)

theorem splitBill_eq (input : BillInput) :
    splitBill input = some (splitBillOut input) := by
  rw [splitBill, calculateItems_eq]
  rfl

theorem contains_iff_mem (l : List String) (a : String) :
    l.contains a = true ↔ a ∈ l := by
  simp [List.contains, List.elem_eq_mem]

theorem scanPersonsLoop_eq :
    ∀ (items : List BillItem) (acc : List String),
      scanPersonsLoop acc items =
        acc ++ firstOccurrences
          ((personsOf items).filter (fun y => !(acc.contains y)))
  | [], acc => by simp [scanPersonsLoop, personsOf, firstOccurrences]
  | .shared price nm :: rest, acc => by
    rw [scanPersonsLoop, scanPersonsLoop_eq rest acc]
    simp [personsOf, List.filterMap_cons]
  | .personal price nm q :: rest, acc => by
    have hps : personsOf (.personal price nm q :: rest) = q :: personsOf rest := by
      simp [personsOf, List.filterMap_cons]
    rw [scanPersonsLoop, hps]
    by_cases hc : q ∈ acc
    · have hcb : acc.contains q = true := (contains_iff_mem acc q).mpr hc
      rw [if_pos hcb, scanPersonsLoop_eq rest acc, List.filter_cons, hcb]
      simp
    · have hcb : acc.contains q = false :=
        Bool.eq_false_iff.mpr fun h => hc ((contains_iff_mem acc q).mp h)
      have hcb' : ¬(acc.contains q = true) := by rw [hcb]; simp
      rw [if_neg hcb', scanPersonsLoop_eq rest (acc ++ [q]), List.filter_cons,
        hcb]
      have hfil : (personsOf rest).filter (fun y => !((acc ++ [q]).contains y)) =
          ((personsOf rest).filter (fun y => !(acc.contains y))).filter
            (fun y => y != q) := by
        rw [List.filter_filter]
        apply List.filter_congr
        intro y _
        by_cases h1 : y ∈ acc <;> by_cases h2 : y = q <;>
          simp [List.contains, List.elem_eq_mem, h1, h2]
      rw [List.append_assoc, List.singleton_append, hfil]
      simp only [Bool.not_false, if_true, firstOccurrences]

theorem scanPersons_eq (items : List BillItem) :
    scanPersons items = firstOccurrences (personsOf items) := by
  rw [scanPersons, scanPersonsLoop_eq]
  simp

theorem mem_firstOccurrences :
    ∀ (l : List String) (x : String), x ∈ firstOccurrences l ↔ x ∈ l := by
  intro l
  induction l using firstOccurrences.induct with
  | case1 => simp [firstOccurrences]
  | case2 a as ih =>
    intro x
    rw [firstOccurrences]
    simp only [List.mem_cons, ih]
    constructor
    · rintro (rfl | hx)
      · exact Or.inl rfl
      · exact Or.inr (List.mem_filter.mp hx).1
    · rintro (rfl | hx)
      · exact Or.inl rfl
      · by_cases hxa : x = a
        · exact Or.inl hxa
        · refine Or.inr (List.mem_filter.mpr ⟨hx, ?_⟩)
          simpa using hxa

theorem nodup_firstOccurrences :
    ∀ l : List String, (firstOccurrences l).Nodup := by
  intro l
  induction l using firstOccurrences.induct with
  | case1 => simp [firstOccurrences]
  | case2 a as ih =>
    rw [firstOccurrences]
    refine List.nodup_cons.mpr ⟨?_, ih⟩
    intro ha
    have := (List.mem_filter.mp ((mem_firstOccurrences _ _).mp ha)).2
    simp at this

theorem map_name_adjustAmount (T : ℚ) (l : List PersonItem) :
    (adjustAmount T l).map PersonItem.name = l.map PersonItem.name := by
  simp only [adjustAmount]
  split
  · rfl
  · cases l with
    | nil => rfl
    | cons first rest => simp

theorem length_adjustAmount (T : ℚ) (l : List PersonItem) :
    (adjustAmount T l).length = l.length := by
  have := congrArg List.length (map_name_adjustAmount T l)
  simpa using this

theorem sumAmounts_adjustAmount (T : ℚ) (l : List PersonItem)
    (hne : l ≠ []) (ht : ∀ it ∈ l, isTenthQ it.amount) :
    sumAmounts (adjustAmount T l) = roundToTenth T := by
  obtain ⟨m, hm⟩ := isTenthQ_sumAmounts l ht
  have hdiff : roundToTenth (T - sumAmounts l) =
      ((⌊T * 10 + 1 / 2⌋ - m : ℤ) : ℚ) / 10 := by
    rw [roundToTenth_eq, hm]
    have harg : (T - (m : ℚ) / 10) * 10 + 1 / 2 = (T * 10 + 1 / 2) + ((-m : ℤ) : ℚ) := by
      push_cast; ring
    rw [harg, Int.floor_add_int]
    push_cast; ring
  simp only [adjustAmount]
  by_cases hd : roundToTenth (T - sumAmounts l) = 0
  · rw [if_pos hd, hm, roundToTenth_eq]
    rw [hdiff] at hd
    have hq0 : ((⌊T * 10 + 1 / 2⌋ - m : ℤ) : ℚ) = 0 :=
      (div_eq_zero_iff.mp hd).resolve_right (by norm_num)
    have hint : (⌊T * 10 + 1 / 2⌋ - m : ℤ) = 0 := by exact_mod_cast hq0
    have : ⌊T * 10 + 1 / 2⌋ = m := by omega
    rw [this]
  · rw [if_neg hd]
    cases l with
    | nil => exact absurd rfl hne
    | cons first rest =>
      obtain ⟨k, hk⟩ := ht first (by simp)
      have hsum : isTenthQ (first.amount + roundToTenth (T - sumAmounts (first :: rest))) := by
        rw [hdiff, hk]
        exact ⟨k + (⌊T * 10 + 1 / 2⌋ - m), by push_cast; ring⟩
      rw [sumAmounts_cons, roundToTenth_of_isTenth hsum]
      have hrest : first.amount + sumAmounts rest = (m : ℚ) / 10 := by
        rw [← sumAmounts_cons, hm]
      rw [hdiff, roundToTenth_eq]
      push_cast
      push_cast at hrest
      linarith

theorem adjustAmount_nil (T : ℚ) : adjustAmount T [] = [] := by
  simp only [adjustAmount]
  split <;> rfl

theorem splitBillOut_items (input : BillInput) :
    (splitBillOut input).items =
      adjustAmount (splitBillOut input).totalAmount (preItems input) := rfl

theorem splitBillOut_totalAmount (input : BillInput) :
    (splitBillOut input).totalAmount =
      calculateSubTotal input.items +
        calculateTip (calculateSubTotal input.items) input.tipPercentage := rfl

theorem splitBillOut_subTotal (input : BillInput) :
    (splitBillOut input).subTotal = calculateSubTotal input.items := rfl

theorem splitBillOut_tip (input : BillInput) :
    (splitBillOut input).tip =
      calculateTip (calculateSubTotal input.items) input.tipPercentage := rfl

theorem splitBillOut_date (input : BillInput) :
    (splitBillOut input).date = formatDate input.date := rfl

theorem preItems_amount_isTenth (input : BillInput) :
    ∀ it ∈ preItems input, isTenthQ it.amount := by
  intro it hit
  rw [preItems] at hit
  obtain ⟨n, -, rfl⟩ := List.mem_map.mp hit
  exact isTenthQ_roundToTenth _

theorem preItems_eq_nil_iff (input : BillInput) :
    preItems input = [] ↔ scanPersons input.items = [] := by
  rw [preItems, List.map_eq_nil_iff]

theorem personSubTotalOf_eq (items : List BillItem) (name : String)
    (persons : ℕ) :
    personSubTotalOf items name persons =
      specPersonalSum items name + specSharedSum items persons := by
  induction items with
  | nil => simp [personSubTotalOf, specPersonalSum, specSharedSum]
  | cons it rest ih =>
    cases it with
    | shared price nm =>
      simp only [personSubTotalOf, specPersonalSum, specSharedSum,
        List.map_cons, List.filterMap_cons, List.sum_cons, contribOf] at ih ⊢
      rw [ih]; ring
    | personal price nm person =>
      simp only [personSubTotalOf, specPersonalSum, specSharedSum,
        List.map_cons, List.filterMap_cons, List.sum_cons, contribOf] at ih ⊢
      by_cases hp : person = name
      · simp only [if_pos hp, List.filterMap_cons, List.sum_cons]
        rw [ih]; ring
      · simp only [if_neg hp]
        rw [ih]; ring

/-! ## The claims -/

/-- Claim C9: for every `BillInput` whose items list is empty, `splitBill`
returns `subTotal = 0`, `tip = 0`, `totalAmount = 0`, and an empty
participant list. -/
theorem C9_empty_items (input : BillInput) (h : input.items = []) :
    splitBill input =
      some { date := formatDate input.date, location := input.location,
             subTotal := 0, tip := 0, totalAmount := 0, items := [] } := by
  rw [splitBill_eq]
  have h1 : calculateSubTotal input.items = 0 := by rw [h]; rfl
  have h2 : calculateTip 0 input.tipPercentage = 0 := by
    norm_num [calculateTip, mathRound_eq_floor]
  have h3 : scanPersons input.items = [] := by rw [h]; rfl
  simp [splitBillOut, h1, h2, h3, preItems, adjustAmount_nil]

/-- Witness for C9 at a concrete empty-items input. -/
theorem C9_witness :
    splitBill { date := "2024-03-21", location := "Cafe",
                tipPercentage := 15, items := [] } =
      some { date := "2024年3月21日", location := "Cafe", subTotal := 0,
             tip := 0, totalAmount := 0, items := [] } := by
  rw [C9_empty_items _ rfl]
  decide

/-- Claim C10: the division of a shared item's price by the participant
count is only evaluated with a count of at least one (the divisor is the
length of a list the person was found in), `adjustAmount` writes nothing on
an empty list, and the whole pipeline never hits the division-by-zero
marker (`splitBill` and `calculateItems` are always `some`). -/
theorem C10_no_division_by_zero (input : BillInput) (items : List BillItem)
    (tipPercentage T : ℚ) (name : String) :
    (splitBill input).isSome = true ∧
    (calculateItems items tipPercentage).isSome = true ∧
    (name ∈ scanPersons items → 0 < (scanPersons items).length) ∧
    adjustAmount T [] = [] := by
  refine ⟨?_, ?_, ?_, adjustAmount_nil T⟩
  · rw [splitBill_eq]; rfl
  · rw [calculateItems_eq]; rfl
  · intro hmem
    exact List.length_pos.mpr (List.ne_nil_of_mem hmem)

/-- Witness for C10 at concrete arguments. -/
theorem C10_witness :
    (splitBill conservationOkInput).isSome = true ∧
    (calculateItems [BillItem.personal 10 "x" "A"] 10).isSome = true ∧
    0 < (scanPersons [BillItem.personal 10 "x" "A"]).length ∧
    adjustAmount 5 [] = [] := by
  obtain ⟨h1, h2, h3, h4⟩ :=
    C10_no_division_by_zero conservationOkInput
      [BillItem.personal 10 "x" "A"] 10 5 "A"
  exact ⟨h1, h2, h3 (by decide), h4⟩

/-- Counterexample to claim C1 as stated: with a single personal item priced
10.05 and no tip, the one participant owes 10.1 but the total is 10.05, and
the reconciliation step leaves the 0.05 gap in place. -/
theorem C1_counterexample :
    splitBill conservationGapInput = some conservationGapOutput ∧
    sumAmounts conservationGapOutput.items ≠
      conservationGapOutput.totalAmount := by
  refine ⟨?_, ?_⟩
  · norm_num +decide [conservationGapInput, conservationGapOutput, splitBill,
      formatDate, jsSplitDash, splitOnChar, jsParseInt, digitsPrefixVal,
      digitsVal, jsNumToString, strOrUndefined, calculateSubTotal,
      calculateTip, calculateItems, mapAmounts, calculatePersonAmount,
      sumForPerson, scanPersons, scanPersonsLoop, adjustAmount, sumAmounts,
      roundToTenth, mathRound_eq_floor, BillItem.price]
  · norm_num [conservationGapOutput, sumAmounts]

/-- Claim C1 as amended: with at least one discovered participant, the
post-reconciliation sum of the participant amounts equals `totalAmount`
rounded to the nearest tenth — hence equals `totalAmount` exactly whenever
`totalAmount` is a whole number of tenths. -/
theorem C1_amended (input : BillInput) (o : BillOutput)
    (h : splitBill input = some o) (hne : o.items ≠ []) :
    sumAmounts o.items = roundToTenth o.totalAmount ∧
    ∀ k : ℤ, o.totalAmount = (k : ℚ) / 10 →
      sumAmounts o.items = o.totalAmount := by
  rw [splitBill_eq] at h
  have h' := Option.some.inj h
  subst h'
  have hpre_ne : preItems input ≠ [] := by
    intro hnil
    apply hne
    rw [splitBillOut_items, hnil, adjustAmount_nil]
  have hsum := sumAmounts_adjustAmount ((splitBillOut input).totalAmount)
    (preItems input) hpre_ne (preItems_amount_isTenth input)
  constructor
  · rw [splitBillOut_items]
    exact hsum
  · intro k hk
    rw [splitBillOut_items, hsum, hk]
    exact roundToTenth_of_isTenth ⟨k, rfl⟩

/-- Witness for C1 (amended) at a concrete input whose total 11 is a whole
number of tenths: the amounts sum to the total exactly. -/
theorem C1_witness :
    splitBill conservationOkInput = some conservationOkOutput ∧
    sumAmounts conservationOkOutput.items =
      conservationOkOutput.totalAmount := by
  refine ⟨?_, ?_⟩
  · norm_num +decide [conservationOkInput, conservationOkOutput, splitBill,
      formatDate, jsSplitDash, splitOnChar, jsParseInt, digitsPrefixVal,
      digitsVal, jsNumToString, strOrUndefined, calculateSubTotal,
      calculateTip, calculateItems, mapAmounts, calculatePersonAmount,
      sumForPerson, scanPersons, scanPersonsLoop, adjustAmount, sumAmounts,
      roundToTenth, mathRound_eq_floor, BillItem.price]
  · refine (C1_amended conservationOkInput conservationOkOutput ?_ ?_).2 110 ?_
    · norm_num +decide [conservationOkInput, conservationOkOutput, splitBill,
        formatDate, jsSplitDash, splitOnChar, jsParseInt, digitsPrefixVal,
        digitsVal, jsNumToString, strOrUndefined, calculateSubTotal,
        calculateTip, calculateItems, mapAmounts, calculatePersonAmount,
        sumForPerson, scanPersons, scanPersonsLoop, adjustAmount, sumAmounts,
        roundToTenth, mathRound_eq_floor, BillItem.price]
    · simp [conservationOkOutput]
    · norm_num [conservationOkOutput]

/-- Claim C5: when the rounded drift between `totalAmount` and the
pre-reconciliation amounts is nonzero, it is added (re-rounded) entirely to
the first participant in discovery order, and every other participant's
amount is unchanged. -/
theorem C5_drift_to_first (input : BillInput) (o : BillOutput)
    (first : PersonItem) (rest : List PersonItem)
    (h : splitBill input = some o)
    (hpre : calculateItems input.items input.tipPercentage =
      some (first :: rest))
    (hd : roundToTenth (o.totalAmount - sumAmounts (first :: rest)) ≠ 0) :
    o.items = { name := first.name,
                amount := roundToTenth (first.amount +
                  roundToTenth (o.totalAmount -
                    sumAmounts (first :: rest))) } :: rest := by
  rw [splitBill_eq] at h
  have h' := Option.some.inj h
  subst h'
  rw [calculateItems_eq] at hpre
  have hpre' : preItems input = first :: rest := by
    rw [preItems]
    exact Option.some.inj hpre
  rw [splitBillOut_items, hpre']
  simp only [adjustAmount]
  rw [if_neg hd]

/-- Witness for C5 at a concrete two-person input with a −0.1 drift: the
first participant absorbs it, the second is unchanged. -/
theorem C5_witness :
    splitBill driftInput = some driftOutput ∧
    driftOutput.items =
      { name := "A",
        amount := roundToTenth ((101 : ℚ) / 10 +
          roundToTenth (driftOutput.totalAmount -
            sumAmounts [{ name := "A", amount := 101 / 10 },
                        { name := "B", amount := 201 / 10 }])) } ::
        [{ name := "B", amount := (201 : ℚ) / 10 }] := by
  have he : splitBill driftInput = some driftOutput := by
    norm_num +decide [driftInput, driftOutput, splitBill, formatDate,
      jsSplitDash, splitOnChar, jsParseInt, digitsPrefixVal, digitsVal,
      jsNumToString, strOrUndefined, calculateSubTotal, calculateTip,
      calculateItems, mapAmounts, calculatePersonAmount, sumForPerson,
      scanPersons, scanPersonsLoop, adjustAmount, sumAmounts, roundToTenth,
      mathRound_eq_floor, BillItem.price]
  refine ⟨he, ?_⟩
  exact C5_drift_to_first driftInput driftOutput
    { name := "A", amount := 101 / 10 } [{ name := "B", amount := 201 / 10 }]
    he
    (by
      norm_num +decide [driftInput, calculateItems, mapAmounts,
        calculatePersonAmount, sumForPerson, scanPersons, scanPersonsLoop,
        roundToTenth, mathRound_eq_floor, BillItem.price])
    (by
      norm_num [driftOutput, sumAmounts, roundToTenth, mathRound_eq_floor])

/-- Claim C6: the output has exactly one `PersonItem` per distinct person
named on a personal item, in first-occurrence order (shared items introduce
no participants), and an input with zero personal items yields an empty
output items list. -/
theorem C6_discovery (input : BillInput) (o : BillOutput)
    (h : splitBill input = some o) :
    o.items.map PersonItem.name = firstOccurrences (personsOf input.items) ∧
    (o.items.map PersonItem.name).Nodup ∧
    (∀ x, x ∈ o.items.map PersonItem.name ↔ x ∈ personsOf input.items) ∧
    (personsOf input.items = [] → o.items = []) := by
  rw [splitBill_eq] at h
  have h' := Option.some.inj h
  subst h'
  have hnames : (splitBillOut input).items.map PersonItem.name =
      scanPersons input.items := by
    rw [splitBillOut_items, map_name_adjustAmount, preItems, List.map_map]
    have hcomp : (PersonItem.name ∘ fun n =>
        ({ name := n,
           amount := personAmountOf input.items input.tipPercentage n
             (scanPersons input.items).length } : PersonItem)) = id := rfl
    rw [hcomp, List.map_id]
  refine ⟨?_, ?_, ?_, ?_⟩
  · rw [hnames, scanPersons_eq]
  · rw [hnames, scanPersons_eq]
    exact nodup_firstOccurrences _
  · intro x
    rw [hnames, scanPersons_eq]
    exact mem_firstOccurrences _ x
  · intro hp
    have hscan : scanPersons input.items = [] := by
      rw [scanPersons_eq, hp, firstOccurrences]
    have hlen : (splitBillOut input).items.length = 0 := by
      rw [splitBillOut_items, length_adjustAmount, preItems, hscan]
      simp
    exact List.length_eq_zero.mp hlen

/-- Witness for C6: persons are discovered as B then A, the duplicate B and
the shared item adding nothing. -/
theorem C6_witness :
    splitBill discoveryInput = some discoveryOutput ∧
    discoveryOutput.items.map PersonItem.name = ["B", "A"] := by
  have he : splitBill discoveryInput = some discoveryOutput := by
    norm_num +decide [discoveryInput, discoveryOutput, splitBill, formatDate,
      jsSplitDash, splitOnChar, jsParseInt, digitsPrefixVal, digitsVal,
      jsNumToString, strOrUndefined, calculateSubTotal, calculateTip,
      calculateItems, mapAmounts, calculatePersonAmount, sumForPerson,
      scanPersons, scanPersonsLoop, adjustAmount, sumAmounts, roundToTenth,
      mathRound_eq_floor, BillItem.price]
  refine ⟨he, ?_⟩
  have hmap := (C6_discovery discoveryInput discoveryOutput he).1
  rw [hmap]
  norm_num +decide [discoveryInput, personsOf, firstOccurrences,
    List.filterMap_cons, List.filter,
    show ("A" != "B") = true from by decide,
    show ("B" != "B") = false from by decide]

/-- Counterexample to claim C2 as stated: on a date whose three components
are not numeric, `splitBill` does not fail — it succeeds and silently
renders the unparseable components as `NaN`. -/
theorem C2_counterexample :
    splitBill badDateInput =
      some { date := "not年NaN月NaN日", location := "L", subTotal := 0,
             tip := 0, totalAmount := 0, items := [] } := by
  norm_num +decide [badDateInput, splitBill, formatDate, jsSplitDash,
    splitOnChar, jsParseInt, digitsPrefixVal, digitsVal, jsNumToString,
    strOrUndefined, calculateSubTotal, calculateTip, calculateItems,
    mapAmounts, calculatePersonAmount, sumForPerson, scanPersons,
    scanPersonsLoop, adjustAmount, sumAmounts, roundToTenth,
    mathRound_eq_floor, BillItem.price]

/-- Claim C2 as amended: `splitBill` never reports an error — it returns a
`BillOutput` for every input; a date with no `-` at all is rendered with the
whole string as the year and `NaN` month and day. -/
theorem C2_amended (input : BillInput) :
    (splitBill input).isSome = true ∧
    (∀ y, jsSplitDash input.date = [y] →
      ∃ o, splitBill input = some o ∧ o.date = y ++ "年NaN月NaN日") := by
  constructor
  · rw [splitBill_eq]; rfl
  · intro y hy
    refine ⟨splitBillOut input, splitBill_eq input, ?_⟩
    rw [splitBillOut_date]
    have g0 : ([y]).get? 0 = some y := rfl
    have g1 : ([y]).get? 1 = none := rfl
    have g2 : ([y]).get? 2 = none := rfl
    simp only [formatDate, hy, g0, g1, g2, Option.none_bind, jsNumToString,
      strOrUndefined]
    rw [String.append_assoc, String.append_assoc, String.append_assoc,
      String.append_assoc]
    rfl

/-- Witness for C2 (amended) at a concrete dash-free date. -/
theorem C2_witness :
    (splitBill noDashInput).isSome = true ∧
    (splitBillOut noDashInput).date = "nodash" ++ "年NaN月NaN日" := by
  refine ⟨(C2_amended noDashInput).1, ?_⟩
  obtain ⟨o, ho, hdate⟩ := (C2_amended noDashInput).2 "nodash" (by decide)
  rw [splitBill_eq] at ho
  rw [Option.some.inj ho]
  exact hdate

/-- Claim C8: a date of the form `YYYY-MM-DD` with parseable month and day
renders as `{year}年{month}月{day}日`, the month and day printed as parsed
integers (leading zeros dropped), with no calendar validation. -/
theorem C8_date_format (input : BillInput) (y m d : String) (mv dv : ℤ)
    (hsplit : jsSplitDash input.date = [y, m, d])
    (hm : jsParseInt m = some mv) (hd : jsParseInt d = some dv)
    (o : BillOutput) (h : splitBill input = some o) :
    o.date = y ++ "年" ++ toString mv ++ "月" ++ toString dv ++ "日" := by
  rw [splitBill_eq] at h
  have h' := Option.some.inj h
  subst h'
  rw [splitBillOut_date]
  have g0 : ([y, m, d]).get? 0 = some y := rfl
  have g1 : ([y, m, d]).get? 1 = some m := rfl
  have g2 : ([y, m, d]).get? 2 = some d := rfl
  simp only [formatDate, hsplit, g0, g1, g2, Option.some_bind, hm, hd,
    jsNumToString, strOrUndefined]

/-- Witness for C8 at the spec's two example dates. -/
theorem C8_witness :
    splitBill { date := "2024-03-21", location := "L", tipPercentage := 0,
                items := [] } =
      some (splitBillOut { date := "2024-03-21", location := "L",
                           tipPercentage := 0, items := [] }) ∧
    (splitBillOut { date := "2024-03-21", location := "L",
                    tipPercentage := 0, items := [] }).date =
      "2024年3月21日" ∧
    (splitBillOut { date := "2024-03-01", location := "L",
                    tipPercentage := 0, items := [] }).date =
      "2024年3月1日" := by
  refine ⟨splitBill_eq _, ?_, ?_⟩
  · have h8 := C8_date_format
      { date := "2024-03-21", location := "L", tipPercentage := 0,
        items := [] } "2024" "03" "21" 3 21 (by decide) (by decide)
      (by decide) (splitBillOut _) (splitBill_eq _)
    rw [h8]
    decide
  · have h8 := C8_date_format
      { date := "2024-03-01", location := "L", tipPercentage := 0,
        items := [] } "2024" "03" "01" 3 1 (by decide) (by decide)
      (by decide) (splitBillOut _) (splitBill_eq _)
    rw [h8]
    decide

/-- Counterexample to claim C7 as stated: with subtotal −1 and tip
percentage 5 ≥ 0, the tie −0.5 rounds toward positive infinity
(`Math.round`), giving tip 0, while rounding half away from zero would give
−0.1. -/
theorem C7_counterexample :
    splitBill negTieInput = some negTieOutput ∧
    negTieOutput.subTotal = -1 ∧ negTieOutput.tip = 0 ∧
    roundTenthAway ((-1) * (5 : ℚ) / 100) = -(1 / 10) ∧
    (0 : ℚ) ≠ -(1 / 10) := by
  refine ⟨?_, by norm_num [negTieOutput], by norm_num [negTieOutput],
    ?_, by norm_num⟩
  · norm_num +decide [negTieInput, negTieOutput, splitBill, formatDate,
      jsSplitDash, splitOnChar, jsParseInt, digitsPrefixVal, digitsVal,
      jsNumToString, strOrUndefined, calculateSubTotal, calculateTip,
      calculateItems, mapAmounts, calculatePersonAmount, sumForPerson,
      scanPersons, scanPersonsLoop, adjustAmount, sumAmounts, roundToTenth,
      mathRound_eq_floor, BillItem.price]
  · norm_num [roundTenthAway]

/-- Claim C7 as amended: the tip is `subTotal × tipPercentage / 100` times
ten, rounded to the nearest integer with ties toward positive infinity
(`⌊x + 1/2⌋`, the JavaScript `Math.round`), divided by ten; this coincides
with rounding half away from zero whenever `subTotal × tipPercentage ≥ 0`;
and `totalAmount = subTotal + tip`. -/
theorem C7_amended (input : BillInput) (o : BillOutput)
    (h : splitBill input = some o) :
    o.tip = ((⌊o.subTotal * input.tipPercentage / 100 * 10 + 1 / 2⌋ : ℤ) : ℚ)
        / 10 ∧
    (0 ≤ o.subTotal * input.tipPercentage →
      o.tip = roundTenthAway (o.subTotal * input.tipPercentage / 100)) ∧
    o.totalAmount = o.subTotal + o.tip := by
  rw [splitBill_eq] at h
  have h' := Option.some.inj h
  subst h'
  refine ⟨?_, ?_, ?_⟩
  · rw [splitBillOut_tip, splitBillOut_subTotal]
    simp only [calculateTip]
    rw [mathRound_eq_floor]
  · intro hpos
    rw [splitBillOut_subTotal] at hpos
    rw [splitBillOut_tip, splitBillOut_subTotal]
    have hx : ¬ (calculateSubTotal input.items * input.tipPercentage / 100
        < 0) :=
      not_lt.mpr (div_nonneg hpos (by norm_num))
    rw [roundTenthAway, if_neg hx]
    simp only [calculateTip]
    rw [mathRound_eq_floor]
  · rw [splitBillOut_totalAmount, splitBillOut_subTotal, splitBillOut_tip]

/-- Witness for C7 (amended): subtotal 10 at tipPercentage 12.34 gives tip
1.2, matching the away-from-zero reading on this non-negative input. -/
theorem C7_witness :
    splitBill tipExampleInput = some tipExampleOutput ∧
    tipExampleOutput.tip = 6 / 5 ∧
    tipExampleOutput.tip = roundTenthAway (tipExampleOutput.subTotal *
      tipExampleInput.tipPercentage / 100) ∧
    tipExampleOutput.totalAmount =
      tipExampleOutput.subTotal + tipExampleOutput.tip := by
  have he : splitBill tipExampleInput = some tipExampleOutput := by
    norm_num +decide [tipExampleInput, tipExampleOutput, splitBill,
      formatDate, jsSplitDash, splitOnChar, jsParseInt, digitsPrefixVal,
      digitsVal, jsNumToString, strOrUndefined, calculateSubTotal,
      calculateTip, calculateItems, mapAmounts, calculatePersonAmount,
      sumForPerson, scanPersons, scanPersonsLoop, adjustAmount, sumAmounts,
      roundToTenth, mathRound_eq_floor, BillItem.price]
  obtain ⟨h1, h2, h3⟩ := C7_amended tipExampleInput tipExampleOutput he
  exact ⟨he, by norm_num [tipExampleOutput],
    h2 (by norm_num [tipExampleOutput, tipExampleInput]), h3⟩

/-- Counterexample to claim C3 as stated: a lone participant with item
price 14.01 at 1% tip owes 14.2 (the unrounded tip 0.1401 is added before
the single final rounding), while rounding the tip to 0.1 first would give
14.1. -/
theorem C3_counterexample :
    calculateItems tipOrderItems 1 = some [{ name := "A", amount := 71 / 5 }] ∧
    claimPersonAmount tipOrderItems 1 "A" 1 = 141 / 10 ∧
    (71 : ℚ) / 5 ≠ 141 / 10 := by
  refine ⟨?_, ?_, by norm_num⟩
  · norm_num +decide [tipOrderItems, calculateItems, mapAmounts,
      calculatePersonAmount, sumForPerson, scanPersons, scanPersonsLoop,
      roundToTenth, mathRound_eq_floor, BillItem.price]
  · norm_num [tipOrderItems, claimPersonAmount, specPersonalSum,
      specSharedSum, roundToTenth, mathRound_eq_floor, List.filterMap_cons,
      List.filterMap_nil]

/-- Claim C3 as amended: for a positive participant count, the
pre-reconciliation amount is `round(s + t, nearest 0.1)` where `s` is the
personal prices plus the shared prices over `N`, and `t = s ×
tipPercentage / 100` is NOT rounded before being added. -/
theorem C3_amended (items : List BillItem) (tipPercentage : ℚ)
    (name : String) (persons : ℕ) (h : persons ≠ 0) :
    calculatePersonAmount items tipPercentage name persons =
      some (roundToTenth
        ((specPersonalSum items name + specSharedSum items persons) +
          (specPersonalSum items name + specSharedSum items persons) *
            tipPercentage / 100)) := by
  rw [calculatePersonAmount_of_ne items tipPercentage name h]
  have hpa : personAmountOf items tipPercentage name persons =
      roundToTenth (personSubTotalOf items name persons +
        personSubTotalOf items name persons * tipPercentage / 100) := rfl
  rw [hpa, personSubTotalOf_eq]

/-- Witness for C3 (amended) at the concrete 14.01 / 1% input. -/
theorem C3_witness :
    calculatePersonAmount tipOrderItems 1 "A" 1 =
      some (roundToTenth
        ((specPersonalSum tipOrderItems "A" + specSharedSum tipOrderItems 1) +
          (specPersonalSum tipOrderItems "A" + specSharedSum tipOrderItems 1)
            * 1 / 100)) :=
  C3_amended tipOrderItems 1 "A" 1 (by norm_num)

/-- Counterexample to claim C4 as stated: swapping the two personal items
permutes the output `PersonItem` sequence, so the `BillOutput` is not
unchanged under permutations of the items list. -/
theorem C4_counterexample :
    permInputA.items.Perm permInputB.items ∧
    splitBill permInputA = some permOutputA ∧
    splitBill permInputB = some permOutputB ∧
    permOutputA ≠ permOutputB := by
  refine ⟨List.Perm.swap _ _ _, ?_, ?_, ?_⟩
  · norm_num +decide [permInputA, permOutputA, splitBill, formatDate,
      jsSplitDash, splitOnChar, jsParseInt, digitsPrefixVal, digitsVal,
      jsNumToString, strOrUndefined, calculateSubTotal, calculateTip,
      calculateItems, mapAmounts, calculatePersonAmount, sumForPerson,
      scanPersons, scanPersonsLoop, adjustAmount, sumAmounts, roundToTenth,
      mathRound_eq_floor, BillItem.price]
  · norm_num +decide [permInputB, permOutputB, splitBill, formatDate,
      jsSplitDash, splitOnChar, jsParseInt, digitsPrefixVal, digitsVal,
      jsNumToString, strOrUndefined, calculateSubTotal, calculateTip,
      calculateItems, mapAmounts, calculatePersonAmount, sumForPerson,
      scanPersons, scanPersonsLoop, adjustAmount, sumAmounts, roundToTenth,
      mathRound_eq_floor, BillItem.price]
  · intro hcontra
    have hmaps := congrArg (fun o => o.items.map PersonItem.name) hcontra
    have hA : permOutputA.items.map PersonItem.name = ["A", "B"] := rfl
    have hB : permOutputB.items.map PersonItem.name = ["B", "A"] := rfl
    simp only [hA, hB] at hmaps
    exact absurd hmaps (by decide)

/-- Claim C4 as amended: under any permutation of the items list,
`subTotal`, `tip` and `totalAmount` are unchanged, the set of discovered
participants and its size are unchanged, and each participant's
pre-reconciliation amount is unchanged; only the order of the output
`PersonItem` sequence (and with it the drift absorber) can change. -/
theorem C4_amended (input : BillInput) (items' : List BillItem)
    (hperm : input.items.Perm items') (o o' : BillOutput)
    (h : splitBill input = some o)
    (h' : splitBill { input with items := items' } = some o') :
    o.subTotal = o'.subTotal ∧ o.tip = o'.tip ∧
    o.totalAmount = o'.totalAmount ∧
    (∀ x, x ∈ scanPersons input.items ↔ x ∈ scanPersons items') ∧
    (scanPersons input.items).length = (scanPersons items').length ∧
    (∀ name N, calculatePersonAmount input.items input.tipPercentage name N =
      calculatePersonAmount items' input.tipPercentage name N) := by
  rw [splitBill_eq] at h h'
  have ho := Option.some.inj h
  have ho' := Option.some.inj h'
  subst ho
  subst ho'
  have hsub : calculateSubTotal input.items = calculateSubTotal items' := by
    rw [calculateSubTotal_eq, calculateSubTotal_eq]
    exact (hperm.map BillItem.price).sum_eq
  have hmem : ∀ x, x ∈ scanPersons input.items ↔ x ∈ scanPersons items' := by
    intro x
    rw [scanPersons_eq, scanPersons_eq, mem_firstOccurrences,
      mem_firstOccurrences]
    exact (hperm.filterMap _).mem_iff
  refine ⟨?_, ?_, ?_, hmem, ?_, ?_⟩
  · rw [splitBillOut_subTotal, splitBillOut_subTotal, hsub]
  · rw [splitBillOut_tip, splitBillOut_tip, hsub]
  · rw [splitBillOut_totalAmount, splitBillOut_totalAmount, hsub]
  · have hnd1 : (scanPersons input.items).Nodup := by
      rw [scanPersons_eq]; exact nodup_firstOccurrences _
    have hnd2 : (scanPersons items').Nodup := by
      rw [scanPersons_eq]; exact nodup_firstOccurrences _
    have hfs : (scanPersons input.items).toFinset =
        (scanPersons items').toFinset := by
      apply Finset.ext
      intro a
      simp only [List.mem_toFinset]
      exact hmem a
    rw [← List.toFinset_card_of_nodup hnd1,
      ← List.toFinset_card_of_nodup hnd2, hfs]
  · intro name N
    rw [calculatePersonAmount_char, calculatePersonAmount_char]
    have hany : input.items.any BillItem.isShared =
        items'.any BillItem.isShared := by
      cases ha : input.items.any BillItem.isShared with
      | true =>
        symm
        rw [List.any_eq_true] at ha ⊢
        obtain ⟨x, hx, hxs⟩ := ha
        exact ⟨x, hperm.mem_iff.mp hx, hxs⟩
      | false =>
        symm
        rw [List.any_eq_false] at ha ⊢
        intro x hx
        exact ha x (hperm.mem_iff.mpr hx)
    have hpa : personAmountOf input.items input.tipPercentage name N =
        personAmountOf items' input.tipPercentage name N := by
      have hs : personSubTotalOf input.items name N =
          personSubTotalOf items' name N := by
        rw [personSubTotalOf, personSubTotalOf]
        exact (hperm.map (contribOf name N)).sum_eq
      simp only [personAmountOf]
      rw [hs]
    rw [hany, hpa]

/-- Witness for C4 (amended) at the concrete swapped inputs. -/
theorem C4_witness :
    splitBill permInputA = some permOutputA ∧
    splitBill permInputB = some permOutputB ∧
    permOutputA.subTotal = permOutputB.subTotal ∧
    permOutputA.totalAmount = permOutputB.totalAmount := by
  have heA : splitBill permInputA = some permOutputA := by
    norm_num +decide [permInputA, permOutputA, splitBill, formatDate,
      jsSplitDash, splitOnChar, jsParseInt, digitsPrefixVal, digitsVal,
      jsNumToString, strOrUndefined, calculateSubTotal, calculateTip,
      calculateItems, mapAmounts, calculatePersonAmount, sumForPerson,
      scanPersons, scanPersonsLoop, adjustAmount, sumAmounts, roundToTenth,
      mathRound_eq_floor, BillItem.price]
  have heB : splitBill permInputB = some permOutputB := by
    norm_num +decide [permInputB, permOutputB, splitBill, formatDate,
      jsSplitDash, splitOnChar, jsParseInt, digitsPrefixVal, digitsVal,
      jsNumToString, strOrUndefined, calculateSubTotal, calculateTip,
      calculateItems, mapAmounts, calculatePersonAmount, sumForPerson,
      scanPersons, scanPersonsLoop, adjustAmount, sumAmounts, roundToTenth,
      mathRound_eq_floor, BillItem.price]
  have heB' : splitBill { permInputA with items := permInputB.items } =
      some permOutputB := heB
  obtain ⟨h1, h2, h3, h4, h5, h6⟩ := C4_amended permInputA permInputB.items
    (List.Perm.swap _ _ _) permOutputA permOutputB heA heB'
  exact ⟨heA, heB, h1, h3⟩
